import Mathlib

/-! Flappy: a shallow embedding of `script.js`

The three classes of `script.js` (`Bird`, `Pipe`, `Game`) are embedded as
structures with explicit state passing.

* JavaScript numbers are taken as exact rationals (`ℚ`); `score` and
  `bestScore` are natural numbers (the best score read from `localStorage` is
  a numeric string, which `>` compares as a number).
* `Math.random()`, `performance.now()` and `Math.sin(bobTimer)` are values of
  the environment and are passed as arguments.
* A bird refers to its game through `this.game`; here the methods of `Bird`
  that read or change the game take the `Game` that owns the bird.
* Effects are kept as data: the audio cues played (`sounds`), the texts of
  the `score-display`, `final-score` and `best-score` elements, and the
  number of `requestAnimationFrame` callbacks that are pending (`pending`).
  Canvas drawing, the CSS classes of the screens and `localStorage` are left
  out (they do not feed back into the state).
-/

namespace Flappy

/-- The three audio cues of `assets.audio`. -/
inductive Sound where
  | jump
  | score
  | gameover
  deriving DecidableEq, Repr

/-- The fields of `class Bird` that the update logic reads or writes. -/
structure Bird where
  x : ℚ
  y : ℚ
  radius : ℚ
  velocity : ℚ
  gravity : ℚ
  jumpStrength : ℚ
  baseY : ℚ
  bobTimer : ℚ
  deriving DecidableEq, Repr

/-- The fields of `class Pipe`. -/
structure Pipe where
  x : ℚ
  width : ℚ
  gap : ℚ
  speed : ℚ
  passed : Bool
  topHeight : ℚ
  bottomY : ℚ
  markedForDeletion : Bool
  deriving DecidableEq, Repr

/-- The fields of `class Game`, with the effects kept as data. -/
structure Game where
  width : ℚ
  height : ℚ
  lastTime : ℚ
  score : ℕ
  bestScore : ℕ
  isRunning : Bool
  isPaused : Bool
  isGameOver : Bool
  pipes : List Pipe
  pipeTimer : ℚ
  pipeInterval : ℚ
  bird : Bird
  /-- audio cues played so far, oldest first -/
  sounds : List Sound
  /-- text of the `score-display` element -/
  scoreDisplay : ℕ
  /-- text of the `final-score` element -/
  finalScore : ℕ
  /-- text of the `best-score` element -/
  bestDisplay : ℕ
  /-- number of `requestAnimationFrame` callbacks not yet fired -/
  pending : ℕ
  deriving DecidableEq, Repr

/-- `new Bird(game)`. -/
def Bird.constructor (width height : ℚ) : Bird where
  x := width * (2 / 10)
  y := height / 2
  radius := 20
  velocity := 0
  gravity := 25 / 100
  jumpStrength := -(55 / 10)
  baseY := height / 2
  bobTimer := 0

/-- `new Pipe(game, x)`; `random` is the value of `Math.random()`. -/
def Pipe.constructor (height : ℚ) (x : ℚ) (random : ℚ) : Pipe :=
  let width : ℚ := 60
  let gap : ℚ := 170
  let minHeight : ℚ := 50
  let availableSpace := height - gap - (minHeight * 2)
  let randomY := random * availableSpace
  let topHeight := minHeight + randomY
  { x := x
    width := width
    gap := gap
    speed := 2
    passed := false
    topHeight := topHeight
    bottomY := topHeight + gap
    markedForDeletion := false }

/-- `Pipe.update()`. -/
def Pipe.update (p : Pipe) : Pipe :=
  let p := { p with x := p.x - p.speed }
  if p.x + p.width < 0 then { p with markedForDeletion := true } else p

/-- `Game.playSound(name)`: every name used is a key of `assets.audio`. -/
def Game.playSound (g : Game) (name : Sound) : Game :=
  { g with sounds := g.sounds ++ [name] }

/-- `requestAnimationFrame(ts => this.loop(ts))`. -/
def Game.requestAnimationFrame (g : Game) : Game :=
  { g with pending := g.pending + 1 }

/-- `Game.gameOver()`. -/
def Game.gameOver (g : Game) : Game :=
  if g.isGameOver then g
  else
    let g := { g with isRunning := false }
    let g := { g with isGameOver := true }
    let g := g.playSound Sound.gameover
    let g := if g.score > g.bestScore then { g with bestScore := g.score } else g
    let g := { g with finalScore := g.score }
    { g with bestDisplay := g.bestScore }

/-- `Bird.update(deltaTime)` of the bird of `game`. -/
def Bird.update (game : Game) (_deltaTime : ℚ) : Game :=
  let game := { game with bird := { game.bird with velocity := game.bird.velocity + game.bird.gravity } }
  let game := { game with bird := { game.bird with y := game.bird.y + game.bird.velocity } }
  -- Floor collision
  let game :=
    if game.bird.y + game.bird.radius ≥ game.height then
      Game.gameOver { game with bird := { game.bird with y := game.height - game.bird.radius } }
    else game
  -- Ceiling collision
  if game.bird.y - game.bird.radius ≤ 0 then
    { game with bird := { game.bird with y := game.bird.radius, velocity := 0 } }
  else game

/-- `Bird.jump()` of the bird of `game`. -/
def Bird.jump (game : Game) : Game :=
  let game := { game with bird := { game.bird with velocity := game.bird.jumpStrength } }
  game.playSound Sound.jump

/-- `Bird.drawIdle(ctx, deltaTime)` of the bird of `game`, as far as it changes
the state; `sin` is the value of `Math.sin(this.bobTimer)`. -/
def Bird.drawIdle (game : Game) (deltaTime : ℚ) (sin : ℚ) : Game :=
  let game := { game with bird := { game.bird with bobTimer := game.bird.bobTimer + deltaTime * (5 / 1000) } }
  { game with bird := { game.bird with y := game.bird.baseY + sin * 10 } }

/-- `Game.drawWelcome(deltaTime)`. -/
def Game.drawWelcome (g : Game) (deltaTime : ℚ) (sin : ℚ) : Game :=
  Bird.drawIdle g deltaTime sin

/-- The collision check of the `forEach` body of `Game.update`, for a pipe that
has already advanced. -/
def Game.checkCollision (g : Game) (pipe : Pipe) : Game :=
  -- 1. Horizontal overlap
  if g.bird.x + g.bird.radius > pipe.x ∧ g.bird.x - g.bird.radius < pipe.x + pipe.width then
    -- 2. Vertical check (Top pipe or Bottom pipe)
    if g.bird.y - g.bird.radius < pipe.topHeight ∨ g.bird.y + g.bird.radius > pipe.bottomY then
      g.gameOver
    else g
  else g

/-- The scoring step of the `forEach` body of `Game.update`. -/
def Game.scorePipe (g : Game) (pipe : Pipe) : Game × Pipe :=
  if pipe.passed = false ∧ g.bird.x > pipe.x + pipe.width then
    let g := { g with score := g.score + 1 }
    let pipe := { pipe with passed := true }
    let g := { g with scoreDisplay := g.score }
    (g.playSound Sound.score, pipe)
  else (g, pipe)

/-- The body of `this.pipes.forEach(pipe => ...)` in `Game.update`. -/
def Game.visitPipe (g : Game) (pipe : Pipe) : Game × Pipe :=
  let pipe := pipe.update
  let g := g.checkCollision pipe
  g.scorePipe pipe

/-- The loop `this.pipes.forEach(...)` of `Game.update`: the pipes are visited
in order, each visit working on the game as the previous one left it. -/
def Game.forEachPipe (g : Game) : List Pipe → Game × List Pipe
  | [] => (g, [])
  | pipe :: rest =>
    let r := g.visitPipe pipe
    let rs := Game.forEachPipe r.1 rest
    (rs.1, r.2 :: rs.2)

/-- The spawn step of `Game.update`. -/
def Game.spawn (g : Game) (deltaTime : ℚ) (random : ℚ) : Game :=
  let g := { g with pipeTimer := g.pipeTimer + deltaTime }
  if g.pipeTimer > g.pipeInterval then
    let g := { g with pipes := g.pipes ++ [Pipe.constructor g.height g.width random] }
    { g with pipeTimer := 0 }
  else g

/-- `Game.update(deltaTime)`; `random` is the value `Math.random()` returns if
a pipe is constructed. -/
def Game.update (g : Game) (deltaTime : ℚ) (random : ℚ) : Game :=
  let g := Bird.update g deltaTime
  -- Pipe Management
  let g := g.spawn deltaTime random
  let r := g.forEachPipe g.pipes
  let g := { r.1 with pipes := r.2 }
  -- Filter pipes
  { g with pipes := g.pipes.filter (fun pipe => !pipe.markedForDeletion) }

/-- `Game.start()`; `now` is the value of `performance.now()`. -/
def Game.start (g : Game) (now : ℚ) : Game :=
  let g := { g with scoreDisplay := 0 }
  let g := { g with isRunning := true }
  let g := { g with isGameOver := false }
  let g := { g with score := 0 }
  let g := { g with pipes := [] }
  let g := { g with pipeTimer := 0 }
  let g := { g with bird := Bird.constructor g.width g.height }
  let g := { g with lastTime := now }
  g.requestAnimationFrame

/-- `Game.restart()`. -/
def Game.restart (g : Game) (now : ℚ) : Game :=
  g.start now

/-- `Game.togglePause()`; `now` is the value of `performance.now()`. -/
def Game.togglePause (g : Game) (now : ℚ) : Game :=
  if g.isRunning = false ∨ g.isGameOver = true then g
  else
    let g := { g with isPaused := !g.isPaused }
    if g.isPaused then g
    else
      -- Resume loop
      let g := { g with lastTime := now }
      g.requestAnimationFrame

/-- `Game.resize()`; `rectWidth`, `rectHeight` are the CSS size of the canvas. -/
def Game.resize (g : Game) (rectWidth rectHeight : ℚ) (sin : ℚ) : Game :=
  let g := { g with width := rectWidth }
  let g := { g with height := rectHeight }
  if g.isRunning = false then
    let g := { g with bird := { g.bird with y := g.height / 2 } }
    let g := { g with bird := { g.bird with baseY := g.height / 2 } }
    g.drawWelcome 0 sin
  else g

/-- The `handleInput` closure of `Game.init()`, for an event that passes the
key filter (Space, mouse down or touch start). -/
def Game.handleInput (g : Game) : Game :=
  if g.isRunning then Bird.jump g else g

/-- `Game.loop(timestamp)`. -/
def Game.loop (g : Game) (timestamp : ℚ) (random : ℚ) (sin : ℚ) : Game :=
  if g.isPaused then g
  else
    let deltaTime := timestamp - g.lastTime
    let g := { g with lastTime := timestamp }
    if g.isRunning then
      let g := g.update deltaTime random
      g.requestAnimationFrame
    else if g.isGameOver = false then
      -- Idle state on welcome screen
      let g := g.drawWelcome deltaTime sin
      g.requestAnimationFrame
    else g

/-- `new Game()`: the canvas has attribute size `canvasWidth × canvasHeight`
and CSS size `rectWidth × rectHeight`; `stored` is the best score read from
`localStorage` (0 when there is none). `Math.sin(0)` is 0. -/
def Game.constructor (canvasWidth canvasHeight rectWidth rectHeight : ℚ) (stored : ℕ) : Game :=
  let g : Game :=
    { width := canvasWidth
      height := canvasHeight
      lastTime := 0
      score := 0
      bestScore := stored
      isRunning := false
      isPaused := false
      isGameOver := false
      pipes := []
      pipeTimer := 0
      pipeInterval := 2200
      bird := Bird.constructor canvasWidth canvasHeight
      sounds := []
      scoreDisplay := 0
      finalScore := 0
      bestDisplay := stored
      pending := 0 }
  -- init()
  g.resize rectWidth rectHeight 0

/-- The `load` handler: construct the game and start the idle loop. -/
def load (canvasWidth canvasHeight rectWidth rectHeight : ℚ) (stored : ℕ) : Game :=
  (Game.constructor canvasWidth canvasHeight rectWidth rectHeight stored).requestAnimationFrame

/-- What can happen after the page has loaded. -/
inductive Event where
  /-- click on `start-btn` -/
  | start (now : ℚ)
  /-- click on `restart-btn` -/
  | restart (now : ℚ)
  /-- click on `pause-btn` or `resume-btn` -/
  | togglePause (now : ℚ)
  /-- Space, mouse down or touch start -/
  | trigger
  /-- the window is resized -/
  | resize (rectWidth rectHeight sin : ℚ)
  /-- a frame callback `ts => this.loop(ts)` fires -/
  | frame (timestamp random sin : ℚ)
  deriving Repr

/-- The effect of one event. A frame callback that fires is no longer pending;
the callback is let run whatever the counter says, so the states reached
include all those the page can reach. -/
def Game.step (g : Game) : Event → Game
  | Event.start now => g.start now
  | Event.restart now => g.restart now
  | Event.togglePause now => g.togglePause now
  | Event.trigger => g.handleInput
  | Event.resize w h sin => g.resize w h sin
  | Event.frame timestamp random sin =>
    Game.loop { g with pending := g.pending - 1 } timestamp random sin

/-- The effect of a sequence of events, oldest first. -/
def Game.run (g : Game) : List Event → Game
  | [] => g
  | e :: es => Game.run (g.step e) es

/-! ## Predicates on states -/

/-- The flag invariant: over and running exclude each other, and a paused
game is running and not over. -/
def Game.FlagsOk (g : Game) : Prop :=
  ¬ (g.isGameOver = true ∧ g.isRunning = true) ∧
  (g.isPaused = true → g.isRunning = true ∧ g.isGameOver = false)

instance (g : Game) : Decidable g.FlagsOk := by
  unfold Game.FlagsOk
  infer_instance

/-- The pipe invariant between two frames: the spawn interval is the
constructor's 2200, and every pipe in the list moves at the constructor's
speed 2, is not marked for deletion, and is flagged `passed` exactly when its
right edge is behind the bird. -/
def Game.PipesOk (g : Game) : Prop :=
  g.pipeInterval = 2200 ∧
  ∀ p ∈ g.pipes, p.speed = 2 ∧ p.markedForDeletion = false ∧
    (p.passed = true ↔ g.bird.x > p.x + p.width)

instance (g : Game) : Decidable g.PipesOk := by
  unfold Game.PipesOk
  infer_instance

/-! ## Sample states -/

/-- A page of CSS size 400 × 600 that has just loaded (the canvas element has
its default attribute size 300 × 150), no best score stored. -/
def loaded : Game := load 300 150 400 600 0

/-- A page whose canvas is only 30 pixels high. -/
def lowPage : Game := load 300 150 400 30 0

/-- The loaded page after a click on `start-btn`. -/
def started : Game := loaded.step (Event.start 0)

/-- A running game with one pipe on screen: after the start, a frame that comes
3000 ms late spawns a pipe (draw 1/2) at x = 400 and advances it to 398. -/
def flying : Game := loaded.run [Event.start 0, Event.frame 3000 (1 / 2) 0]

/-- The running game after the window has become 21 pixels wide: the next pipe
spawns at x = 21, while the bird stays at x = 80. -/
def narrowed : Game := loaded.run [Event.start 0, Event.resize 21 600 0]

/-- The running game with the bird at height `y`. -/
def birdAt (y : ℚ) : Game := { started with bird := { started.bird with y := y } }

/-- A pipe of the 600 pixel high game with `topHeight = 200` and
`bottomY = 370`, at x = 82 (so at x = 80, where the bird is, once advanced). -/
def gapPipe : Pipe := Pipe.constructor 600 82 (5 / 11)

/-- A game that is over: the bird of `started` has been dropped on the floor. -/
def crashed : Game := Bird.update (birdAt 590) 16

/-! ## Frame lemmas for `gameOver` -/

/-- What `gameOver` does when the game is not over yet, field by field. -/
theorem gameOver_of_not_over (g : Game) (h : g.isGameOver = false) :
    g.gameOver =
      { g with
        isRunning := false
        isGameOver := true
        sounds := g.sounds ++ [Sound.gameover]
        bestScore := max g.bestScore g.score
        finalScore := g.score
        bestDisplay := max g.bestScore g.score } := by
  by_cases h2 : g.score > g.bestScore
  · have h3 : max g.bestScore g.score = g.score := max_eq_right h2.le
    simp [Game.gameOver, Game.playSound, h, h2, h3]
  · have h3 : max g.bestScore g.score = g.bestScore := max_eq_left (not_lt.mp h2)
    simp [Game.gameOver, Game.playSound, h, h2, h3]

/-- A second `gameOver` changes nothing. -/
theorem gameOver_of_over (g : Game) (h : g.isGameOver = true) : g.gameOver = g := by
  simp [Game.gameOver, h]

theorem gameOver_bird (g : Game) : g.gameOver.bird = g.bird := by
  cases h : g.isGameOver
  · rw [gameOver_of_not_over g h]
  · rw [gameOver_of_over g h]

theorem gameOver_height (g : Game) : g.gameOver.height = g.height := by
  cases h : g.isGameOver
  · rw [gameOver_of_not_over g h]
  · rw [gameOver_of_over g h]

/-! ## What one frame preserves -/

/-- `Pipe.update` field by field. -/
theorem Pipe.update_eq (p : Pipe) :
    p.update =
      { p with
        x := p.x - p.speed
        markedForDeletion := p.markedForDeletion || decide (p.x - p.speed + p.width < 0) } := by
  unfold Pipe.update
  by_cases h : p.x - p.speed + p.width < 0 <;> simp [h]

theorem checkCollision_preserves (P : Game → Prop) (hover : ∀ g, P g → P g.gameOver)
    (g : Game) (pipe : Pipe) (h : P g) : P (g.checkCollision pipe) := by
  unfold Game.checkCollision
  split_ifs
  · exact hover g h
  · exact h
  · exact h

theorem scorePipe_preserves (P : Game → Prop)
    (hscore : ∀ g, P g →
      P { g with score := g.score + 1, scoreDisplay := g.score + 1,
                 sounds := g.sounds ++ [Sound.score] })
    (g : Game) (pipe : Pipe) (h : P g) : P (g.scorePipe pipe).1 := by
  unfold Game.scorePipe
  split_ifs
  · exact hscore g h
  · exact h

/-- A property of the game that `gameOver` and a score increment preserve is
preserved by the whole `forEach` loop. -/
theorem forEachPipe_preserves (P : Game → Prop) (hover : ∀ g, P g → P g.gameOver)
    (hscore : ∀ g, P g →
      P { g with score := g.score + 1, scoreDisplay := g.score + 1,
                 sounds := g.sounds ++ [Sound.score] }) :
    ∀ (ps : List Pipe) (g : Game), P g → P (g.forEachPipe ps).1
  | [], _, h => h
  | pipe :: rest, g, h => by
    simp only [Game.forEachPipe]
    apply forEachPipe_preserves P hover hscore rest
    unfold Game.visitPipe
    exact scorePipe_preserves P hscore _ _ (checkCollision_preserves P hover _ _ h)

/-- `gameOver` does not look at the bird, the pipes or the spawn timer. -/
theorem gameOver_setState (g : Game) (b : Bird) (ps : List Pipe) (t : ℚ) :
    Game.gameOver { g with bird := b, pipes := ps, pipeTimer := t }
      = { g.gameOver with bird := b, pipes := ps, pipeTimer := t } := by
  cases g
  simp only [Game.gameOver, Game.playSound]
  split_ifs <;> rfl

/-- `Bird.update` is `gameOver` on floor contact, or nothing, followed by a
change of the bird alone. -/
theorem birdUpdate_eq (g : Game) (deltaTime : ℚ) :
    ∃ b : Bird, Bird.update g deltaTime =
      { (if g.bird.y + (g.bird.velocity + g.bird.gravity) + g.bird.radius ≥ g.height
          then g.gameOver else g) with bird := b } := by
  cases g
  simp only [Bird.update, Game.gameOver, Game.playSound]
  split_ifs <;> exact ⟨_, rfl⟩

/-- `Game.spawn` field by field. -/
theorem spawn_eq (g : Game) (deltaTime random : ℚ) :
    g.spawn deltaTime random =
      { g with
        pipes := g.pipes ++
          (if g.pipeTimer + deltaTime > g.pipeInterval
            then [Pipe.constructor g.height g.width random] else [])
        pipeTimer := if g.pipeTimer + deltaTime > g.pipeInterval then 0
          else g.pipeTimer + deltaTime } := by
  unfold Game.spawn
  by_cases h : g.pipeTimer + deltaTime > g.pipeInterval <;> simp [h]

theorem birdUpdate_preserves (P : Game → Prop) (hover : ∀ g, P g → P g.gameOver)
    (hstate : ∀ g b ps t, P g → P { g with bird := b, pipes := ps, pipeTimer := t })
    (g : Game) (deltaTime : ℚ) (h : P g) : P (Bird.update g deltaTime) := by
  obtain ⟨b, hb⟩ := birdUpdate_eq g deltaTime
  rw [hb]
  split_ifs
  · exact hstate g.gameOver b _ _ (hover g h)
  · exact hstate g b _ _ h

theorem spawn_preserves (P : Game → Prop)
    (hstate : ∀ g b ps t, P g → P { g with bird := b, pipes := ps, pipeTimer := t })
    (g : Game) (deltaTime random : ℚ) (h : P g) : P (g.spawn deltaTime random) := by
  rw [spawn_eq]
  exact hstate g g.bird _ _ h

/-- A property of the game that does not depend on the bird, the pipe list or
the spawn timer, and that `gameOver` and a score increment preserve, is
preserved by `Game.update`. -/
theorem update_preserves (P : Game → Prop) (hover : ∀ g, P g → P g.gameOver)
    (hscore : ∀ g, P g →
      P { g with score := g.score + 1, scoreDisplay := g.score + 1,
                 sounds := g.sounds ++ [Sound.score] })
    (hstate : ∀ g b ps t, P g → P { g with bird := b, pipes := ps, pipeTimer := t })
    (g : Game) (deltaTime random : ℚ) (h : P g) : P (g.update deltaTime random) := by
  have h1 := spawn_preserves P hstate _ deltaTime random
    (birdUpdate_preserves P hover hstate g deltaTime h)
  have h2 := forEachPipe_preserves P hover hscore
    ((Bird.update g deltaTime).spawn deltaTime random).pipes _ h1
  exact hstate (((Bird.update g deltaTime).spawn deltaTime random).forEachPipe
      ((Bird.update g deltaTime).spawn deltaTime random).pipes).1
    (((Bird.update g deltaTime).spawn deltaTime random).forEachPipe
      ((Bird.update g deltaTime).spawn deltaTime random).pipes).1.bird
    ((((Bird.update g deltaTime).spawn deltaTime random).forEachPipe
      ((Bird.update g deltaTime).spawn deltaTime random).pipes).2.filter
        (fun pipe => !pipe.markedForDeletion))
    (((Bird.update g deltaTime).spawn deltaTime random).forEachPipe
      ((Bird.update g deltaTime).spawn deltaTime random).pipes).1.pipeTimer h2

/-! ## The `forEach` loop, pipe by pipe -/

theorem gameOver_score (g : Game) : g.gameOver.score = g.score := by
  cases h : g.isGameOver
  · rw [gameOver_of_not_over g h]
  · rw [gameOver_of_over g h]

theorem checkCollision_bird (g : Game) (pipe : Pipe) : (g.checkCollision pipe).bird = g.bird :=
  checkCollision_preserves (fun g' => g'.bird = g.bird)
    (fun g' h => (gameOver_bird g').trans h) g pipe rfl

theorem checkCollision_score (g : Game) (pipe : Pipe) :
    (g.checkCollision pipe).score = g.score :=
  checkCollision_preserves (fun g' => g'.score = g.score)
    (fun g' h => (gameOver_score g').trans h) g pipe rfl

theorem forEachPipe_bird (g : Game) (ps : List Pipe) : (g.forEachPipe ps).1.bird = g.bird :=
  forEachPipe_preserves (fun g' => g'.bird = g.bird)
    (fun g' h => (gameOver_bird g').trans h) (fun _ h => h) ps g rfl

/-- The pipe as the `forEach` body leaves it: advanced, marked when off screen,
flagged when its right edge is behind the bird. -/
theorem visitPipe_snd (g : Game) (p : Pipe) :
    (g.visitPipe p).2 =
      { p with
        x := p.x - p.speed
        markedForDeletion := p.markedForDeletion || decide (p.x - p.speed + p.width < 0)
        passed := p.passed || decide (g.bird.x > p.x - p.speed + p.width) } := by
  unfold Game.visitPipe Game.scorePipe
  simp only [checkCollision_bird, Pipe.update_eq]
  cases hp : p.passed <;> by_cases hc : g.bird.x > p.x - p.speed + p.width <;> simp [hp, hc]

/-- The score after the `forEach` body: one more exactly when the pipe was not
flagged and its right edge, after advancing, is behind the bird. -/
theorem visitPipe_score (g : Game) (p : Pipe) :
    (g.visitPipe p).1.score =
      g.score + if p.passed = false ∧ g.bird.x > p.x - p.speed + p.width then 1 else 0 := by
  unfold Game.visitPipe Game.scorePipe
  simp only [checkCollision_bird, Pipe.update_eq]
  split_ifs
  · simp [Game.playSound, checkCollision_score]
  · simp [checkCollision_score]

theorem visitPipe_bird (g : Game) (p : Pipe) : (g.visitPipe p).1.bird = g.bird := by
  have h := forEachPipe_bird g [p]
  simpa [Game.forEachPipe] using h

/-- The pipes after the `forEach` loop. -/
theorem forEachPipe_snd (ps : List Pipe) (g : Game) :
    (g.forEachPipe ps).2 = ps.map (fun p =>
      { p with
        x := p.x - p.speed
        markedForDeletion := p.markedForDeletion || decide (p.x - p.speed + p.width < 0)
        passed := p.passed || decide (g.bird.x > p.x - p.speed + p.width) }) := by
  induction ps generalizing g with
  | nil => rfl
  | cons p rest ih =>
    simp only [Game.forEachPipe, List.map_cons]
    rw [ih, visitPipe_snd, visitPipe_bird]

/-- The score after the `forEach` loop. -/
theorem forEachPipe_score (ps : List Pipe) (g : Game) :
    (g.forEachPipe ps).1.score =
      g.score + ps.countP (fun p =>
        !p.passed && decide (g.bird.x > p.x - p.speed + p.width)) := by
  induction ps generalizing g with
  | nil => rfl
  | cons p rest ih =>
    simp only [Game.forEachPipe, List.countP_cons]
    rw [ih, visitPipe_score, visitPipe_bird]
    cases hp : p.passed <;> by_cases hc : g.bird.x > p.x - p.speed + p.width <;>
      (simp [hp, hc]; try omega)

/-! ## One `Game.update`, field by field -/

/-- What `Bird.update` leaves alone. -/
theorem birdUpdate_fields (g : Game) (deltaTime : ℚ) :
    (Bird.update g deltaTime).bird.x = g.bird.x ∧
    (Bird.update g deltaTime).pipes = g.pipes ∧
    (Bird.update g deltaTime).pipeTimer = g.pipeTimer ∧
    (Bird.update g deltaTime).pipeInterval = g.pipeInterval ∧
    (Bird.update g deltaTime).height = g.height ∧
    (Bird.update g deltaTime).width = g.width ∧
    (Bird.update g deltaTime).score = g.score := by
  cases g
  simp only [Bird.update, Game.gameOver, Game.playSound]
  split_ifs <;> simp

/-- The pipe list the `forEach` loop of `Game.update` works on. -/
theorem update_visited (g : Game) (deltaTime random : ℚ) :
    ((Bird.update g deltaTime).spawn deltaTime random).pipes =
      g.pipes ++ (if g.pipeTimer + deltaTime > g.pipeInterval
        then [Pipe.constructor g.height g.width random] else []) := by
  obtain ⟨-, h2, h3, h4, h5, h6, -⟩ := birdUpdate_fields g deltaTime
  rw [spawn_eq]
  simp only [h2, h3, h4, h5, h6]

theorem update_bird_x (g : Game) (deltaTime random : ℚ) :
    (g.update deltaTime random).bird.x = g.bird.x := by
  unfold Game.update
  simp only [forEachPipe_bird, spawn_eq]
  exact (birdUpdate_fields g deltaTime).1

/-- The pipe list after `Game.update`. -/
theorem update_pipes (g : Game) (deltaTime random : ℚ) :
    (g.update deltaTime random).pipes =
      ((g.pipes ++ (if g.pipeTimer + deltaTime > g.pipeInterval
          then [Pipe.constructor g.height g.width random] else [])).map (fun p =>
        { p with
          x := p.x - p.speed
          markedForDeletion := p.markedForDeletion || decide (p.x - p.speed + p.width < 0)
          passed := p.passed || decide (g.bird.x > p.x - p.speed + p.width) })).filter
        (fun pipe => !pipe.markedForDeletion) := by
  have hv := update_visited g deltaTime random
  have hx : ((Bird.update g deltaTime).spawn deltaTime random).bird.x = g.bird.x := by
    rw [spawn_eq]
    exact (birdUpdate_fields g deltaTime).1
  unfold Game.update
  simp only [forEachPipe_snd, hv, hx]

/-- The score after `Game.update`. -/
theorem update_score (g : Game) (deltaTime random : ℚ) :
    (g.update deltaTime random).score =
      g.score + (g.pipes ++ (if g.pipeTimer + deltaTime > g.pipeInterval
          then [Pipe.constructor g.height g.width random] else [])).countP (fun p =>
        !p.passed && decide (g.bird.x > p.x - p.speed + p.width)) := by
  have hv := update_visited g deltaTime random
  have hx : ((Bird.update g deltaTime).spawn deltaTime random).bird.x = g.bird.x := by
    rw [spawn_eq]
    exact (birdUpdate_fields g deltaTime).1
  have hs : ((Bird.update g deltaTime).spawn deltaTime random).score = g.score := by
    rw [spawn_eq]
    exact (birdUpdate_fields g deltaTime).2.2.2.2.2.2
  unfold Game.update
  simp only [forEachPipe_score, hv, hx, hs]

/-- Retiring the marked pipes is the same as removing the pipes that are off
screen after advancing, when no pipe was marked before. -/
theorem retire_eq (bx : ℚ) (ps : List Pipe)
    (h : ∀ p ∈ ps, p.speed = 2 ∧ p.markedForDeletion = false) :
    (ps.map (fun p =>
        { p with
          x := p.x - p.speed
          markedForDeletion := p.markedForDeletion || decide (p.x - p.speed + p.width < 0)
          passed := p.passed || decide (bx > p.x - p.speed + p.width) })).filter
        (fun pipe => !pipe.markedForDeletion) =
      (ps.map (fun p =>
        { p with x := p.x - 2, passed := p.passed || decide (bx > p.x - 2 + p.width) })).filter
        (fun p => !decide (p.x + p.width < 0)) := by
  induction ps with
  | nil => rfl
  | cons p rest ih =>
    have hp := h p (List.mem_cons_self p rest)
    have ih2 := ih (fun q hq => h q (List.mem_cons_of_mem p hq))
    simp only [List.map_cons, List.filter_cons, hp.1, hp.2, Bool.false_or]
    by_cases hc : p.x - 2 + p.width < 0
    · simpa [hc] using ih2
    · simpa [hc, hp.2] using ih2

/-- Counting over a list zipped with its own image. -/
theorem countP_zip_map {α β : Type} (f : α → β) (q : α × β → Bool) (l : List α) :
    (l.zip (l.map f)).countP q = l.countP (fun a => q (a, f a)) := by
  induction l with
  | nil => rfl
  | cons a rest ih => simp only [List.map_cons, List.zip_cons_cons, List.countP_cons, ih]

/-- The pipe invariant holds again after `Game.update`. -/
theorem update_pipesOk (g : Game) (deltaTime random : ℚ) (h : g.PipesOk) :
    (g.update deltaTime random).PipesOk := by
  obtain ⟨hint, hps⟩ := h
  refine ⟨?_, ?_⟩
  · exact update_preserves (fun g' => g'.pipeInterval = 2200)
      (fun g' h' => by
        cases hg : g'.isGameOver
        · rw [gameOver_of_not_over g' hg]; exact h'
        · rw [gameOver_of_over g' hg]; exact h')
      (fun _ h' => h') (fun _ _ _ _ h' => h') g deltaTime random hint
  · intro q hq
    rw [update_pipes, List.mem_filter, List.mem_map] at hq
    obtain ⟨⟨p, hp, rfl⟩, hm⟩ := hq
    rw [update_bird_x]
    rw [List.mem_append] at hp
    have hp2 : p.speed = 2 ∧ p.markedForDeletion = false ∧
        (p.passed = true → g.bird.x > p.x + p.width) ∧
        (p.passed = false ∨ g.bird.x > p.x + p.width) := by
      rcases hp with hp | hp
      · obtain ⟨h1, h2, h3⟩ := hps p hp
        refine ⟨h1, h2, h3.1, ?_⟩
        cases hpp : p.passed
        · exact Or.inl rfl
        · exact Or.inr (h3.1 hpp)
      · split_ifs at hp
        · rw [List.mem_singleton] at hp
          subst hp
          exact ⟨rfl, rfl, fun h => by simp [Pipe.constructor] at h, Or.inl rfl⟩
        · simp at hp
    obtain ⟨h1, h2, h3, h4⟩ := hp2
    simp only [h1, h2, Bool.false_or] at hm ⊢
    refine ⟨trivial, by simpa using hm, ?_⟩
    simp only [Bool.or_eq_true, decide_eq_true_eq]
    constructor
    · rintro (hpp | hc)
      · have := h3 hpp
        linarith
      · exact hc
    · intro hc
      exact Or.inr hc

/-- The pipe invariant only looks at the spawn interval, the pipes and the
horizontal position of the bird. -/
theorem pipesOk_congr (g g' : Game) (h1 : g'.pipeInterval = g.pipeInterval)
    (h2 : g'.pipes = g.pipes) (h3 : g'.bird.x = g.bird.x) (h : g.PipesOk) : g'.PipesOk := by
  unfold Game.PipesOk at h ⊢
  rw [h1, h2, h3]
  exact h

theorem start_pipesOk (g : Game) (now : ℚ) (h : g.PipesOk) : (g.start now).PipesOk :=
  ⟨h.1, fun p hp => by simp [Game.start, Game.requestAnimationFrame] at hp⟩

theorem loop_pipesOk (g : Game) (timestamp random sin : ℚ) (h : g.PipesOk) :
    (g.loop timestamp random sin).PipesOk := by
  unfold Game.loop
  simp only []
  split_ifs
  · exact h
  · exact pipesOk_congr _ _ rfl rfl rfl
      (update_pipesOk _ _ random (pipesOk_congr g _ rfl rfl rfl h))
  · exact pipesOk_congr g _ rfl rfl rfl h
  · exact pipesOk_congr g _ rfl rfl rfl h

/-- Every event keeps the pipe invariant. -/
theorem step_pipesOk (g : Game) (e : Event) (h : g.PipesOk) : (g.step e).PipesOk := by
  cases e with
  | start now => exact start_pipesOk g now h
  | restart now => exact start_pipesOk g now h
  | togglePause now =>
    refine pipesOk_congr g _ ?_ ?_ ?_ h <;>
      (simp only [Game.step, Game.togglePause, Game.requestAnimationFrame]; split_ifs <;> rfl)
  | trigger =>
    refine pipesOk_congr g _ ?_ ?_ ?_ h <;>
      (simp only [Game.step, Game.handleInput, Bird.jump, Game.playSound]; split_ifs <;> rfl)
  | resize w h' sin =>
    refine pipesOk_congr g _ ?_ ?_ ?_ h <;>
      (simp only [Game.step, Game.resize, Game.drawWelcome, Bird.drawIdle]; split_ifs <;> rfl)
  | frame timestamp random sin =>
    exact loop_pipesOk _ timestamp random sin (pipesOk_congr g _ rfl rfl rfl h)

/-- Every sequence of events keeps the pipe invariant. -/
theorem run_pipesOk (evs : List Event) (g : Game) (h : g.PipesOk) : (g.run evs).PipesOk := by
  induction evs generalizing g with
  | nil => exact h
  | cons e rest ih => exact ih _ (step_pipesOk g e h)

/-- The pipe invariant holds when the page has loaded. -/
theorem load_pipesOk (canvasWidth canvasHeight rectWidth rectHeight : ℚ) (stored : ℕ) :
    (load canvasWidth canvasHeight rectWidth rectHeight stored).PipesOk :=
  ⟨rfl, fun p hp => by
    simp [load, Game.constructor, Game.resize, Game.drawWelcome, Bird.drawIdle,
      Game.requestAnimationFrame] at hp⟩

/-! ## C2: the bird stays between ceiling and floor -/

/-- C2 (as stated) fails on a canvas lower than the bird: on a page whose canvas
is 30 pixels high, a bird with radius 20 and gravity 1/4 is put on the floor
(y = 10) and then on the ceiling (y = 20), which is below the floor line
`height - radius = 10`. -/
theorem c2_counterexample :
    lowPage.bird.radius = 20 ∧ lowPage.bird.gravity = 1 / 4 ∧ lowPage.height = 30 ∧
    (Bird.update lowPage 16).bird.y = 20 ∧
    ¬ ((Bird.update lowPage 16).bird.radius ≤ (Bird.update lowPage 16).bird.y ∧
       (Bird.update lowPage 16).bird.y
         ≤ (Bird.update lowPage 16).height - (Bird.update lowPage 16).bird.radius) := by
  decide!

/-- C2 (amended): for every game whose height is at least 40 (twice the radius),
every bird state with radius 20 and every deltaTime, after `Bird.update` the
bird satisfies `radius ≤ y ≤ height - radius`. -/
theorem c2_bird_update_bounds (g : Game) (deltaTime : ℚ)
    (hr : g.bird.radius = 20) (hh : 40 ≤ g.height) :
    (Bird.update g deltaTime).bird.radius ≤ (Bird.update g deltaTime).bird.y ∧
    (Bird.update g deltaTime).bird.y
      ≤ (Bird.update g deltaTime).height - (Bird.update g deltaTime).bird.radius := by
  unfold Bird.update
  simp only []
  split_ifs with h1 h2 h2
  · simp only [gameOver_bird, gameOver_height, hr] at h2 ⊢
    constructor <;> linarith
  · simp only [gameOver_bird, gameOver_height, hr] at h2 ⊢
    constructor <;> linarith
  · simp only [hr] at h1 h2 ⊢
    constructor <;> linarith
  · simp only [hr] at h1 h2 ⊢
    constructor <;> linarith

/-- C2 witness: the loaded 400 × 600 page. -/
theorem c2_bird_update_bounds_witness :
    loaded.bird.radius = 20 ∧ 40 ≤ loaded.height ∧
    (Bird.update loaded 16).bird.radius ≤ (Bird.update loaded 16).bird.y ∧
    (Bird.update loaded 16).bird.y
      ≤ (Bird.update loaded 16).height - (Bird.update loaded 16).bird.radius :=
  ⟨by decide!, by decide!, c2_bird_update_bounds loaded 16 (by decide!) (by decide!)⟩

/-! ## C3: where the gap of a new pipe is placed -/

/-- C3 (as stated) fails on a low canvas: with height 200 and a draw of 1/2 the
top pipe is only 15 high. -/
theorem c3_counterexample :
    (0 : ℚ) ≤ 1 / 2 ∧ (1 / 2 : ℚ) < 1 ∧
    (Pipe.constructor 200 400 (1 / 2)).topHeight = 15 ∧
    ¬ (50 ≤ (Pipe.constructor 200 400 (1 / 2)).topHeight) := by
  decide!

/-- C3 (amended): for every game height of at least 270 (gap plus twice
minHeight) and every draw `0 ≤ r < 1`, a newly constructed pipe has
`topHeight ≥ 50`, `height - (topHeight + 170) ≥ 50` and
`bottomY = topHeight + 170`; for height 600, `topHeight` lies in `[50, 380]`. -/
theorem c3_pipe_gap_placement (height x r : ℚ) (h0 : 0 ≤ r) (h1 : r < 1)
    (hh : 270 ≤ height) :
    50 ≤ (Pipe.constructor height x r).topHeight ∧
    50 ≤ height - ((Pipe.constructor height x r).topHeight + 170) ∧
    (Pipe.constructor height x r).bottomY = (Pipe.constructor height x r).topHeight + 170 ∧
    (height = 600 → (Pipe.constructor height x r).topHeight ≤ 380) := by
  simp only [Pipe.constructor]
  have hA : 0 ≤ height - 170 - 50 * 2 := by linarith
  have hB : r * (height - 170 - 50 * 2) ≤ 1 * (height - 170 - 50 * 2) :=
    mul_le_mul_of_nonneg_right h1.le hA
  have hC : 0 ≤ r * (height - 170 - 50 * 2) := mul_nonneg h0 hA
  refine ⟨by linarith, by linarith, trivial, fun h => ?_⟩
  subst h
  linarith

/-- C3 witness: height 600, draw 1/2. -/
theorem c3_pipe_gap_placement_witness :
    (0 : ℚ) ≤ 1 / 2 ∧ (1 / 2 : ℚ) < 1 ∧ (270 : ℚ) ≤ 600 ∧
    50 ≤ (Pipe.constructor 600 400 (1 / 2)).topHeight ∧
    50 ≤ (600 : ℚ) - ((Pipe.constructor 600 400 (1 / 2)).topHeight + 170) ∧
    (Pipe.constructor 600 400 (1 / 2)).bottomY
      = (Pipe.constructor 600 400 (1 / 2)).topHeight + 170 ∧
    (Pipe.constructor 600 400 (1 / 2)).topHeight ≤ 380 :=
  ⟨by decide!, by decide!, by decide!,
    (c3_pipe_gap_placement 600 400 (1 / 2) (by decide!) (by decide!) (by decide!)).1,
    (c3_pipe_gap_placement 600 400 (1 / 2) (by decide!) (by decide!) (by decide!)).2.1,
    (c3_pipe_gap_placement 600 400 (1 / 2) (by decide!) (by decide!) (by decide!)).2.2.1,
    (c3_pipe_gap_placement 600 400 (1 / 2) (by decide!) (by decide!) (by decide!)).2.2.2 rfl⟩

/-! ## C10: pipes advance, one may spawn, those off screen are retired -/

/-- C10: for every state whose spawn interval is the constructor's 2200 and
whose pipes move at the constructor's speed 2 and are not marked for deletion,
after `Game.update` the pipe list is the previous list, followed by one new
pipe exactly when `pipeTimer + deltaTime > 2200`, with every pipe's x decreased
by 2 (and its `passed` flag set if its right edge is now behind the bird), with
exactly the pipes with `x + width < 0` removed, in the same order; no pipe left
in the list is marked for deletion. -/
theorem c10_advance_and_retire (g : Game) (deltaTime random : ℚ)
    (hint : g.pipeInterval = 2200)
    (hpipes : ∀ p ∈ g.pipes, p.speed = 2 ∧ p.markedForDeletion = false) :
    (g.update deltaTime random).pipes =
      ((g.pipes ++ (if g.pipeTimer + deltaTime > 2200
          then [Pipe.constructor g.height g.width random] else [])).map (fun p =>
        { p with x := p.x - 2, passed := p.passed || decide (g.bird.x > p.x - 2 + p.width) })).filter
        (fun p => !decide (p.x + p.width < 0)) ∧
    ∀ p ∈ (g.update deltaTime random).pipes, p.markedForDeletion = false := by
  have hall : ∀ p ∈ g.pipes ++ (if g.pipeTimer + deltaTime > 2200
      then [Pipe.constructor g.height g.width random] else []),
      p.speed = 2 ∧ p.markedForDeletion = false := by
    intro p hp
    rw [List.mem_append] at hp
    rcases hp with hp | hp
    · exact hpipes p hp
    · split_ifs at hp
      · rw [List.mem_singleton] at hp
        subst hp
        exact ⟨rfl, rfl⟩
      · simp at hp
  constructor
  · rw [update_pipes, hint]
    exact retire_eq g.bird.x _ hall
  · intro p hp
    rw [update_pipes, List.mem_filter] at hp
    simpa using hp.2

/-- C10 witness: a frame of the running game with one pipe on screen, at
x = 398 before the frame and at x = 396 after it. -/
theorem c10_advance_and_retire_witness :
    flying.pipeInterval = 2200 ∧ flying.pipes.map Pipe.x = [398] ∧
    flying.pipes.map Pipe.speed = [2] ∧
    flying.pipes.map Pipe.markedForDeletion = [false] ∧
    (flying.update 16 (1 / 2)).pipes =
      ((flying.pipes ++ (if flying.pipeTimer + 16 > 2200
          then [Pipe.constructor flying.height flying.width (1 / 2)] else [])).map (fun p =>
        { p with
          x := p.x - 2, passed := p.passed || decide (flying.bird.x > p.x - 2 + p.width) })).filter
        (fun p => !decide (p.x + p.width < 0)) ∧
    (flying.update 16 (1 / 2)).pipes.map Pipe.x = [396] :=
  ⟨by decide!, by decide!, by decide!, by decide!,
    (c10_advance_and_retire flying 16 (1 / 2) (by decide!) (by decide!)).1, by decide!⟩

/-! ## C4: every pipe is scored once -/

/-- C4: in a state that satisfies the pipe invariant (every state between two
frames does, see `run_pipesOk`), `Game.update` raises the score by one for
every old pipe whose right edge was not behind the bird before and is behind
it after the pipe has advanced, and by one for a newly spawned pipe whose
right edge is behind the bird after its first advance, and by nothing else;
this increase is the number of pipes whose `passed` flag goes from false to
true in the `forEach` loop; the bird does not move horizontally and the pipe
invariant holds again, now and after every further sequence of events, so a
pipe that has been counted is flagged and is not counted again. -/
theorem c4_score_once_per_pipe (g : Game) (deltaTime random : ℚ) (h : g.PipesOk) :
    (g.update deltaTime random).score =
      g.score
        + g.pipes.countP (fun p =>
            decide (¬ g.bird.x > p.x + p.width ∧ g.bird.x > p.x - 2 + p.width))
        + (if g.pipeTimer + deltaTime > 2200
            then [Pipe.constructor g.height g.width random] else []).countP (fun p =>
            decide (g.bird.x > p.x - 2 + p.width)) ∧
    (g.update deltaTime random).score =
      g.score
        + (List.zip ((Bird.update g deltaTime).spawn deltaTime random).pipes
            (((Bird.update g deltaTime).spawn deltaTime random).forEachPipe
              ((Bird.update g deltaTime).spawn deltaTime random).pipes).2).countP
            (fun pq => !pq.1.passed && pq.2.passed) ∧
    (g.update deltaTime random).bird.x = g.bird.x ∧
    (g.update deltaTime random).PipesOk ∧
    ∀ evs : List Event, ((g.update deltaTime random).run evs).PipesOk := by
  have hok := update_pipesOk g deltaTime random h
  obtain ⟨hint, hps⟩ := h
  refine ⟨?_, ?_, update_bird_x g deltaTime random, hok, fun evs => run_pipesOk evs _ hok⟩
  · rw [update_score, hint, List.countP_append, ← Nat.add_assoc]
    congr 1
    · congr 1
      apply List.countP_congr
      intro p hp
      obtain ⟨h1, -, h3⟩ := hps p hp
      rw [h1]
      cases hpp : p.passed
      · have : ¬ g.bird.x > p.x + p.width := fun hc => by
          rw [h3.2 hc] at hpp
          exact Bool.noConfusion hpp
        simp [this]
      · have : g.bird.x > p.x + p.width := h3.1 hpp
        simp [this]
    · split_ifs
      · simp [Pipe.constructor, List.countP_cons]
      · rfl
  · have hx : ((Bird.update g deltaTime).spawn deltaTime random).bird.x = g.bird.x := by
      rw [spawn_eq]
      exact (birdUpdate_fields g deltaTime).1
    rw [forEachPipe_snd, countP_zip_map, update_score, update_visited, hx]
    congr 1
    apply List.countP_congr
    intro p _
    cases p.passed <;> simp

/-- C4 witness: in the narrowed game a late frame spawns a pipe whose right
edge is behind the bird after its first advance; the score goes from 0 to 1,
and the next frame does not count the pipe again. -/
theorem c4_score_once_per_pipe_witness :
    narrowed.PipesOk ∧
    (narrowed.update 3000 (1 / 2)).score = narrowed.score + 0 + 1 ∧
    (narrowed.update 3000 (1 / 2)).PipesOk ∧
    ((narrowed.update 3000 (1 / 2)).update 16 (1 / 2)).score = 1 :=
  ⟨by decide!,
    (c4_score_once_per_pipe narrowed 3000 (1 / 2) (by decide!)).1.trans (by decide!),
    (c4_score_once_per_pipe narrowed 3000 (1 / 2) (by decide!)).2.2.2.1,
    by decide!⟩

/-! ## C1: the best score -/

/-- How the state of a frame relates to the state `g₀` the frame started in:
either the game is not over and the best score is untouched, or it is over and
the best score is the larger of the old one and the final score shown. -/
theorem update_tracks (g₀ : Game) (deltaTime random : ℚ) (h0 : g₀.isGameOver = false) :
    ((g₀.update deltaTime random).isGameOver = false ∧
        (g₀.update deltaTime random).bestScore = g₀.bestScore) ∨
    ((g₀.update deltaTime random).isGameOver = true ∧
        (g₀.update deltaTime random).bestScore
          = max g₀.bestScore (g₀.update deltaTime random).finalScore ∧
        g₀.score ≤ (g₀.update deltaTime random).finalScore ∧
        (g₀.update deltaTime random).finalScore ≤ (g₀.update deltaTime random).score) := by
  refine update_preserves (fun g =>
      (g.isGameOver = false ∧ g.bestScore = g₀.bestScore ∧ g₀.score ≤ g.score) ∨
      (g.isGameOver = true ∧ g.bestScore = max g₀.bestScore g.finalScore ∧
        g₀.score ≤ g.finalScore ∧ g.finalScore ≤ g.score))
    ?_ ?_ ?_ g₀ deltaTime random (Or.inl ⟨h0, rfl, le_rfl⟩) |>.imp (fun h => ⟨h.1, h.2.1⟩) id
  · intro g h
    cases hg : g.isGameOver
    · rw [gameOver_of_not_over g hg]
      rcases h with h | h
      · exact Or.inr ⟨rfl, by rw [← h.2.1], h.2.2, le_rfl⟩
      · rw [hg] at h
        exact absurd h.1 (by decide)
    · rw [gameOver_of_over g hg]
      exact h
  · intro g h
    rcases h with h | h
    · exact Or.inl ⟨h.1, h.2.1, Nat.le_succ_of_le h.2.2⟩
    · exact Or.inr ⟨h.1, h.2.1, h.2.2.1, Nat.le_succ_of_le h.2.2.2⟩
  · intro g b ps t h
    exact h

theorem gameOver_bestScore_le (g : Game) : g.bestScore ≤ g.gameOver.bestScore := by
  cases hg : g.isGameOver
  · rw [gameOver_of_not_over g hg]
    exact le_max_left _ _
  · rw [gameOver_of_over g hg]

theorem update_bestScore_le (g : Game) (deltaTime random : ℚ) :
    g.bestScore ≤ (g.update deltaTime random).bestScore :=
  update_preserves (fun g' => g.bestScore ≤ g'.bestScore)
    (fun g' h => le_trans h (gameOver_bestScore_le g')) (fun _ h => h) (fun _ _ _ _ h => h)
    g deltaTime random le_rfl

theorem step_bestScore_le (g : Game) (e : Event) : g.bestScore ≤ (g.step e).bestScore := by
  cases e with
  | start now => exact le_rfl
  | restart now => exact le_rfl
  | togglePause now =>
    simp only [Game.step, Game.togglePause, Game.requestAnimationFrame]
    split_ifs <;> exact le_rfl
  | trigger =>
    simp only [Game.step, Game.handleInput, Bird.jump, Game.playSound]
    split_ifs <;> exact le_rfl
  | resize w h sin =>
    simp only [Game.step, Game.resize, Game.drawWelcome, Bird.drawIdle]
    split_ifs <;> exact le_rfl
  | frame timestamp random sin =>
    simp only [Game.step, Game.loop, Game.requestAnimationFrame]
    split_ifs
    · exact le_rfl
    · exact update_bestScore_le
        { g with pending := g.pending - 1, lastTime := timestamp } _ random
    · exact le_rfl
    · exact le_rfl

theorem run_bestScore_le (evs : List Event) (g : Game) : g.bestScore ≤ (g.run evs).bestScore := by
  induction evs generalizing g with
  | nil => exact le_rfl
  | cons e rest ih => exact le_trans (step_bestScore_le g e) (ih _)

/-- C1 (as stated) fails: in the running game `narrowed` (best score 0, score
0) a frame spawns a pipe that the bird hits in the very frame in which the
pipe's right edge passes the bird. `gameOver` writes the best score while the
score is still 0, then the same loop iteration counts the pipe: after the call
the game is over, the score is 1, and the best score is 0, not `max 0 1`. -/
theorem c1_counterexample :
    narrowed.isRunning = true ∧ narrowed.isGameOver = false ∧ narrowed.bestScore = 0 ∧
    (narrowed.update 3000 (10 / 11)).isGameOver = true ∧
    (narrowed.update 3000 (10 / 11)).score = 1 ∧
    (narrowed.update 3000 (10 / 11)).bestScore = 0 ∧
    ¬ ((narrowed.update 3000 (10 / 11)).bestScore
        = max narrowed.bestScore (narrowed.update 3000 (10 / 11)).score) := by
  decide!

/-- C1 (amended): when a `Game.update` call ends a session (the game was not
over before the call and is over after it), the best score after the call is
the larger of the best score before and the final score, which is the score at
the moment `gameOver` was invoked (the text of `final-score`); it is at least
the score before the call and at most the score after it. The best score never
decreases, over any sequence of events from any state. -/
theorem c1_best_score (g : Game) (deltaTime random : ℚ) (h0 : g.isGameOver = false)
    (h1 : (g.update deltaTime random).isGameOver = true) :
    (g.update deltaTime random).bestScore
      = max g.bestScore (g.update deltaTime random).finalScore ∧
    g.score ≤ (g.update deltaTime random).finalScore ∧
    (g.update deltaTime random).finalScore ≤ (g.update deltaTime random).score ∧
    ∀ (s : Game) (evs : List Event), s.bestScore ≤ (s.run evs).bestScore := by
  rcases update_tracks g deltaTime random h0 with h | h
  · rw [h1] at h
    exact absurd h.1 (by decide)
  · exact ⟨h.2.1, h.2.2.1, h.2.2.2, fun s evs => run_bestScore_le evs s⟩

/-- C1 witness: the frame of the counterexample. -/
theorem c1_best_score_witness :
    narrowed.isGameOver = false ∧ (narrowed.update 3000 (10 / 11)).isGameOver = true ∧
    (narrowed.update 3000 (10 / 11)).bestScore
      = max narrowed.bestScore (narrowed.update 3000 (10 / 11)).finalScore ∧
    (narrowed.update 3000 (10 / 11)).finalScore ≤ (narrowed.update 3000 (10 / 11)).score :=
  ⟨by decide!, by decide!,
    (c1_best_score narrowed 3000 (10 / 11) (by decide!) (by decide!)).1,
    (c1_best_score narrowed 3000 (10 / 11) (by decide!) (by decide!)).2.2.1⟩

/-! ## C5: the collision test -/

/-- C5: for every game and every pipe, the `forEach` body, having advanced the
pipe, invokes `gameOver` exactly when the bird's horizontal extent overlaps
the advanced pipe and the bird's top is above `topHeight` or its bottom below
`bottomY`: the collision check is `gameOver` in that case and does nothing
otherwise, and a game that was not over is over after the visit exactly in
that case. With `topHeight = 200`, `bottomY = 370` and radius 20, a bird
overlapping the pipe at y = 285 does not end the game, one at y = 100 does. -/
theorem c5_collision_iff :
    (∀ (g : Game) (pipe : Pipe),
      (((g.bird.x + g.bird.radius > pipe.x - pipe.speed ∧
            g.bird.x - g.bird.radius < pipe.x - pipe.speed + pipe.width) ∧
          (g.bird.y - g.bird.radius < pipe.topHeight ∨
            g.bird.y + g.bird.radius > pipe.bottomY)) →
        g.checkCollision pipe.update = g.gameOver) ∧
      (¬ ((g.bird.x + g.bird.radius > pipe.x - pipe.speed ∧
            g.bird.x - g.bird.radius < pipe.x - pipe.speed + pipe.width) ∧
          (g.bird.y - g.bird.radius < pipe.topHeight ∨
            g.bird.y + g.bird.radius > pipe.bottomY)) →
        g.checkCollision pipe.update = g) ∧
      ((g.visitPipe pipe).1.isGameOver = true ↔
        g.isGameOver = true ∨
          ((g.bird.x + g.bird.radius > pipe.x - pipe.speed ∧
              g.bird.x - g.bird.radius < pipe.x - pipe.speed + pipe.width) ∧
            (g.bird.y - g.bird.radius < pipe.topHeight ∨
              g.bird.y + g.bird.radius > pipe.bottomY)))) ∧
    (gapPipe.topHeight = 200 ∧ gapPipe.bottomY = 370 ∧ (birdAt 285).bird.radius = 20 ∧
      (birdAt 285).bird.x + 20 > gapPipe.update.x ∧
      (birdAt 285).bird.x - 20 < gapPipe.update.x + gapPipe.update.width ∧
      (birdAt 285).isGameOver = false ∧
      ((birdAt 285).visitPipe gapPipe).1.isGameOver = false ∧
      ((birdAt 100).visitPipe gapPipe).1.isGameOver = true) := by
  refine ⟨fun g pipe => ?_, by decide!⟩
  have hsc : ∀ (g' : Game) (q : Pipe), (g'.scorePipe q).1.isGameOver = g'.isGameOver := by
    intro g' q
    unfold Game.scorePipe
    split_ifs <;> rfl
  have hgo : g.gameOver.isGameOver = true := by
    cases hg : g.isGameOver
    · rw [gameOver_of_not_over g hg]
    · rw [gameOver_of_over g hg]; exact hg
  have e1 : pipe.update.x = pipe.x - pipe.speed := by rw [Pipe.update_eq]
  have e2 : pipe.update.width = pipe.width := by rw [Pipe.update_eq]
  have e3 : pipe.update.topHeight = pipe.topHeight := by rw [Pipe.update_eq]
  have e4 : pipe.update.bottomY = pipe.bottomY := by rw [Pipe.update_eq]
  by_cases hit : (g.bird.x + g.bird.radius > pipe.x - pipe.speed ∧
        g.bird.x - g.bird.radius < pipe.x - pipe.speed + pipe.width) ∧
      (g.bird.y - g.bird.radius < pipe.topHeight ∨ g.bird.y + g.bird.radius > pipe.bottomY)
  · have hc : g.checkCollision pipe.update = g.gameOver := by
      unfold Game.checkCollision
      rw [e1, e2, e3, e4, if_pos hit.1, if_pos hit.2]
    refine ⟨fun _ => hc, fun h => absurd hit h, ?_⟩
    unfold Game.visitPipe
    simp only [hsc, hc, hgo, true_iff]
    exact Or.inr hit
  · have hc : g.checkCollision pipe.update = g := by
      unfold Game.checkCollision
      rw [e1, e2, e3, e4]
      by_cases hh : g.bird.x + g.bird.radius > pipe.x - pipe.speed ∧
          g.bird.x - g.bird.radius < pipe.x - pipe.speed + pipe.width
      · rw [if_pos hh, if_neg (fun hv => hit ⟨hh, hv⟩)]
      · rw [if_neg hh]
    refine ⟨fun h => absurd h hit, fun _ => hc, ?_⟩
    unfold Game.visitPipe
    simp only [hsc, hc]
    exact ⟨Or.inl, fun h => h.resolve_right hit⟩

/-! ## C6: restart -/

/-- C6: for every state in which the game is over, after `restart` the score is
0, the pipe list is empty, the spawn timer is 0, the bird is a fresh one with
`y = baseY = height / 2`, `x = 0.2 * width` and velocity 0, the game is
running and not over; width and height are those of the state before. -/
theorem c6_restart (g : Game) (now : ℚ) (_h : g.isGameOver = true) :
    (g.restart now).score = 0 ∧ (g.restart now).pipes = [] ∧ (g.restart now).pipeTimer = 0 ∧
    (g.restart now).bird = Bird.constructor (g.restart now).width (g.restart now).height ∧
    (g.restart now).bird.y = (g.restart now).height / 2 ∧
    (g.restart now).bird.baseY = (g.restart now).height / 2 ∧
    (g.restart now).bird.x = (2 / 10) * (g.restart now).width ∧
    (g.restart now).bird.velocity = 0 ∧
    (g.restart now).isRunning = true ∧ (g.restart now).isGameOver = false ∧
    (g.restart now).width = g.width ∧ (g.restart now).height = g.height := by
  unfold Game.restart Game.start Game.requestAnimationFrame Bird.constructor
  exact ⟨rfl, rfl, rfl, rfl, rfl, rfl, mul_comm _ _, rfl, rfl, rfl, rfl, rfl⟩

/-- C6 witness: restart of the game that ended on the floor. -/
theorem c6_restart_witness :
    crashed.isGameOver = true ∧ (crashed.restart 5000).score = 0 ∧
    (crashed.restart 5000).pipes = [] ∧ (crashed.restart 5000).bird.y = 300 ∧
    (crashed.restart 5000).bird.x = 80 ∧ (crashed.restart 5000).isRunning = true := by
  have h := c6_restart crashed 5000 (by decide!)
  exact ⟨by decide!, h.1, h.2.1, by decide!, by decide!, h.2.2.2.2.2.2.2.2.1⟩

/-! ## C7: `gameOver` is idempotent -/

/-- C7: for every state that is already over, `gameOver` returns the state
unchanged, so score, best score, flags, pipes and bird stay and no cue is
added to the sounds played; hence for every state a second `gameOver` changes
nothing, and the first one adds the `gameover` cue exactly when the game was
not over and then sets the best score to the larger of best score and score. -/
theorem c7_gameOver_idempotent (s : Game) (h : s.isGameOver = true) :
    s.gameOver = s ∧ s.gameOver.sounds = s.sounds ∧
    ∀ t : Game, t.gameOver.gameOver = t.gameOver ∧
      t.gameOver.gameOver.sounds = t.gameOver.sounds ∧
      t.gameOver.gameOver.bestScore = t.gameOver.bestScore ∧
      (t.isGameOver = false →
        t.gameOver.sounds = t.sounds ++ [Sound.gameover] ∧
        t.gameOver.bestScore = max t.bestScore t.score) := by
  have hs := gameOver_of_over s h
  refine ⟨hs, by rw [hs], fun t => ?_⟩
  have ht : t.gameOver.isGameOver = true := by
    cases hg : t.isGameOver
    · rw [gameOver_of_not_over t hg]
    · rw [gameOver_of_over t hg]; exact hg
  have h2 := gameOver_of_over t.gameOver ht
  refine ⟨h2, by rw [h2], by rw [h2], fun hg => ?_⟩
  rw [gameOver_of_not_over t hg]
  exact ⟨rfl, rfl⟩

/-- C7 witness: the game that ended on the floor. -/
theorem c7_gameOver_idempotent_witness :
    crashed.isGameOver = true ∧ crashed.gameOver = crashed ∧
    started.gameOver.gameOver = started.gameOver :=
  ⟨by decide!, (c7_gameOver_idempotent crashed (by decide!)).1,
    ((c7_gameOver_idempotent crashed (by decide!)).2.2 started).1⟩

/-! ## C8: the flags -/

theorem flagsOk_congr (g g' : Game) (h1 : g'.isRunning = g.isRunning)
    (h2 : g'.isPaused = g.isPaused) (h3 : g'.isGameOver = g.isGameOver) (h : g.FlagsOk) :
    g'.FlagsOk := by
  unfold Game.FlagsOk at h ⊢
  rw [h1, h2, h3]
  exact h

theorem start_flagsOk (g : Game) (now : ℚ) : (g.start now).FlagsOk := by
  unfold Game.FlagsOk
  simp [Game.start, Game.requestAnimationFrame]

theorem togglePause_flagsOk (g : Game) (now : ℚ) (h : g.FlagsOk) :
    (g.togglePause now).FlagsOk := by
  unfold Game.togglePause
  by_cases hg : g.isRunning = false ∨ g.isGameOver = true
  · rw [if_pos hg]
    exact h
  · rw [if_neg hg]
    have hr : g.isRunning = true := by
      cases hr : g.isRunning
      · exact absurd (Or.inl hr) hg
      · rfl
    have ho : g.isGameOver = false := by
      cases ho : g.isGameOver
      · rfl
      · exact absurd (Or.inr ho) hg
    simp only []
    split_ifs <;> simp [Game.FlagsOk, Game.requestAnimationFrame, hr, ho]

/-- After `Game.update` of a running game that is not paused, the game is still
not paused, and it is not both over and running. -/
theorem update_flags (g : Game) (deltaTime random : ℚ) (hp : g.isPaused = false)
    (ho : g.isGameOver = false) :
    (g.update deltaTime random).isPaused = false ∧
    ¬ ((g.update deltaTime random).isGameOver = true ∧
        (g.update deltaTime random).isRunning = true) := by
  refine update_preserves (fun g' => g'.isPaused = false ∧
      ¬ (g'.isGameOver = true ∧ g'.isRunning = true)) ?_ (fun _ h => h) (fun _ _ _ _ h => h)
    g deltaTime random ⟨hp, by simp [ho]⟩
  intro g' h
  cases hg : g'.isGameOver
  · rw [gameOver_of_not_over g' hg]
    exact ⟨h.1, by simp⟩
  · rw [gameOver_of_over g' hg]
    exact h

theorem loop_flagsOk (g : Game) (timestamp random sin : ℚ) (h : g.FlagsOk) :
    (g.loop timestamp random sin).FlagsOk := by
  unfold Game.loop
  simp only []
  split_ifs with hp hr ho
  · exact h
  · have hp2 : g.isPaused = false := by simpa using hp
    have ho2 : g.isGameOver = false := by
      cases ho2 : g.isGameOver
      · rfl
      · exact absurd ⟨ho2, hr⟩ h.1
    have hu := update_flags { g with lastTime := timestamp } (timestamp - g.lastTime) random
      hp2 ho2
    exact ⟨hu.2, fun hpp => by
      have := hu.1
      simp only [Game.requestAnimationFrame] at hpp
      rw [this] at hpp
      exact absurd hpp (by decide)⟩
  · exact flagsOk_congr g _ rfl rfl rfl h
  · exact flagsOk_congr g _ rfl rfl rfl h

/-- Every event keeps the flag invariant. -/
theorem step_flagsOk (g : Game) (e : Event) (h : g.FlagsOk) : (g.step e).FlagsOk := by
  cases e with
  | start now => exact start_flagsOk g now
  | restart now => exact start_flagsOk g now
  | togglePause now => exact togglePause_flagsOk g now h
  | trigger =>
    refine flagsOk_congr g _ ?_ ?_ ?_ h <;>
      (simp only [Game.step, Game.handleInput, Bird.jump, Game.playSound]; split_ifs <;> rfl)
  | resize w h' sin =>
    refine flagsOk_congr g _ ?_ ?_ ?_ h <;>
      (simp only [Game.step, Game.resize, Game.drawWelcome, Bird.drawIdle]; split_ifs <;> rfl)
  | frame timestamp random sin =>
    exact loop_flagsOk _ timestamp random sin (flagsOk_congr g _ rfl rfl rfl h)

theorem run_flagsOk (evs : List Event) (g : Game) (h : g.FlagsOk) : (g.run evs).FlagsOk := by
  induction evs generalizing g with
  | nil => exact h
  | cons e rest ih => exact ih _ (step_flagsOk g e h)

/-- A frame never pauses the game. -/
theorem loop_isPaused (g : Game) (timestamp random sin : ℚ) :
    (g.loop timestamp random sin).isPaused = g.isPaused := by
  unfold Game.loop
  simp only []
  split_ifs
  · rfl
  · exact update_preserves (fun g' => g'.isPaused = g.isPaused)
      (fun g' h => by
        cases hg : g'.isGameOver
        · rw [gameOver_of_not_over g' hg]; exact h
        · rw [gameOver_of_over g' hg]; exact h)
      (fun _ h => h) (fun _ _ _ _ h => h) { g with lastTime := timestamp } _ random rfl
  · rfl
  · rfl

/-- C8: in every state reached from a state with
`isRunning = isPaused = isGameOver = false` (such as the constructed game) by
any sequence of start, restart, togglePause, trigger, resize and frame events,
`isGameOver` and `isRunning` are not both true, and `isPaused` implies
`isRunning` and not `isGameOver`. `togglePause` changes nothing when the game
is not running or is over, and an event that pauses the game finds it running
and not over. -/
theorem c8_flags_invariant (g : Game) (evs : List Event)
    (h1 : g.isRunning = false) (h2 : g.isPaused = false) (h3 : g.isGameOver = false) :
    ¬ ((g.run evs).isGameOver = true ∧ (g.run evs).isRunning = true) ∧
    ((g.run evs).isPaused = true →
      (g.run evs).isRunning = true ∧ (g.run evs).isGameOver = false) ∧
    (∀ (s : Game) (now : ℚ), s.isRunning = false ∨ s.isGameOver = true →
      s.togglePause now = s) ∧
    (∀ (s : Game) (e : Event), s.isPaused = false → (s.step e).isPaused = true →
      s.isRunning = true ∧ s.isGameOver = false) := by
  have h0 : g.FlagsOk := by simp [Game.FlagsOk, h1, h2, h3]
  have h := run_flagsOk evs g h0
  refine ⟨h.1, h.2, fun s now hs => ?_, fun s e hs hp => ?_⟩
  · unfold Game.togglePause
    rw [if_pos hs]
  · cases e with
    | start now =>
      simp [Game.step, Game.start, Game.requestAnimationFrame, hs] at hp
    | restart now =>
      simp [Game.step, Game.restart, Game.start, Game.requestAnimationFrame, hs] at hp
    | togglePause now =>
      by_cases hg : s.isRunning = false ∨ s.isGameOver = true
      · simp only [Game.step, Game.togglePause, if_pos hg] at hp
        rw [hs] at hp
        exact absurd hp (by decide)
      · constructor
        · cases hr : s.isRunning
          · exact absurd (Or.inl hr) hg
          · rfl
        · cases ho : s.isGameOver
          · rfl
          · exact absurd (Or.inr ho) hg
    | trigger =>
      have : (s.step Event.trigger).isPaused = s.isPaused := by
        simp only [Game.step, Game.handleInput, Bird.jump, Game.playSound]
        split_ifs <;> rfl
      rw [this, hs] at hp
      exact absurd hp (by decide)
    | resize w h' sin =>
      have : (s.step (Event.resize w h' sin)).isPaused = s.isPaused := by
        simp only [Game.step, Game.resize, Game.drawWelcome, Bird.drawIdle]
        split_ifs <;> rfl
      rw [this, hs] at hp
      exact absurd hp (by decide)
    | frame timestamp random sin =>
      simp only [Game.step, loop_isPaused] at hp
      rw [hs] at hp
      exact absurd hp (by decide)

/-- C8 witness: the loaded page, then start, a frame and a click on pause: the
game is paused, hence running and not over. -/
theorem c8_flags_invariant_witness :
    loaded.isRunning = false ∧ loaded.isPaused = false ∧ loaded.isGameOver = false ∧
    (loaded.run [Event.start 0, Event.frame 16 (1 / 2) 0, Event.togglePause 20]).isPaused
      = true ∧
    (loaded.run [Event.start 0, Event.frame 16 (1 / 2) 0, Event.togglePause 20]).isRunning
      = true ∧
    (loaded.run [Event.start 0, Event.frame 16 (1 / 2) 0, Event.togglePause 20]).isGameOver
      = false :=
  ⟨by decide!, by decide!, by decide!, by decide!,
    (c8_flags_invariant loaded [Event.start 0, Event.frame 16 (1 / 2) 0, Event.togglePause 20]
      (by decide!) (by decide!) (by decide!)).2.1 (by decide!)⟩

/-! ## C9: frame callbacks -/

/-- C9 fails on the code: when the page has loaded, one callback of the idle
loop is pending; a click on `start-btn` requests another one without the
first being cancelled, so two are pending. Both fire for the next frame, each
runs `Game.update` and requests itself again: after the frame two callbacks
are pending again, and gravity has been applied twice (velocity 1/2). After
a restart from game over only one callback is pending. Pausing and resuming
before the pending callback has fired adds a callback in the same way. -/
theorem c9_two_callbacks_pending :
    loaded.pending = 1 ∧
    (loaded.step (Event.start 0)).pending = 2 ∧
    (loaded.run [Event.start 0, Event.frame 16 (1 / 2) 0, Event.frame 16 (1 / 2) 0]).pending = 2 ∧
    (loaded.run [Event.start 0, Event.frame 16 (1 / 2) 0,
      Event.frame 16 (1 / 2) 0]).bird.velocity = 1 / 2 ∧
    (loaded.run [Event.start 0, Event.frame 16 (1 / 2) 0,
      Event.frame 16 (1 / 2) 0]).bird.y = 300 + 1 / 4 + 1 / 2 ∧
    (loaded.run [Event.frame 16 (1 / 2) 0, Event.start 20, Event.togglePause 21,
      Event.togglePause 22]).pending = 3 := by
  decide!

end Flappy
